import Mathlib

/-!
Shallow embedding of `ultralytics/models/yolo/dwa/val.py` (class `DWAValidator`).
Scalars are modelled as rationals; rank-2 tensors as shape-carrying matrices.
External library routines that the file calls but that are not part of the
source file (box IoU, coordinate conversions, the shared matching routine,
the per-class metrics accessor) are modelled from the specification and are
marked as such in their doc comments.
-/

namespace MLDwA

/-- A rank-2 tensor with explicit shape, mirroring a torch tensor: `nr` rows,
`nc` columns, and the row data. Constructors below keep shape and data
consistent. -/
structure Mat (α : Type) where
  nr : Nat
  nc : Nat
  data : List (List α)
deriving DecidableEq, Repr

/-- `torch.zeros(n, m, dtype=torch.bool)`: an all-false boolean matrix. -/
def Mat.zerosB (n m : Nat) : Mat Bool :=
  ⟨n, m, List.replicate n (List.replicate m false)⟩

/-- `torch.zeros(n, m)`: an all-zero float matrix. -/
def Mat.zerosQ (n m : Nat) : Mat ℚ :=
  ⟨n, m, List.replicate n (List.replicate m (0 : ℚ))⟩

/-- A box in corner format `x1, y1, x2, y2` (the format of `predn[:, :4]` and
of native-space label boxes). -/
structure Box4 where
  x1 : ℚ
  y1 : ℚ
  x2 : ℚ
  y2 : ℚ
deriving DecidableEq, Repr

/-- A box in center format `x, y, w, h` (the format of `batch[bboxes]` rows and
of the JSON-export intermediate). -/
structure BoxCW where
  x : ℚ
  y : ℚ
  w : ℚ
  h : ℚ
deriving DecidableEq, Repr

/-- Modelled from the spec: `ops.xyxy2xywh` converts a corner-format box to
center/width-height format (this routine lives outside the source file). -/
def xyxy2xywh (b : Box4) : BoxCW :=
  ⟨(b.x1 + b.x2) / 2, (b.y1 + b.y2) / 2, b.x2 - b.x1, b.y2 - b.y1⟩

/-- Modelled from the spec: `ops.xywh2xyxy` converts a center/width-height box
to corner format (this routine lives outside the source file). -/
def xywh2xyxy (b : BoxCW) : Box4 :=
  ⟨b.x - b.w / 2, b.y - b.h / 2, b.x + b.w / 2, b.y + b.h / 2⟩

/-- The in-place shift `box[:, :2] -= box[:, 2:] / 2` from `pred_to_json`:
moves the xy center to the top-left corner. -/
def centerToTopLeft (b : BoxCW) : BoxCW :=
  { b with x := b.x - b.w / 2, y := b.y - b.h / 2 }

/-- The inverse direction named by the spec: shift a top-left corner back to
the center. -/
def topLeftToCenter (b : BoxCW) : BoxCW :=
  { b with x := b.x + b.w / 2, y := b.y + b.h / 2 }

/-- The full JSON-export box conversion of `pred_to_json`: corner format to
center/width-height, then center shifted to the top-left corner. -/
def jsonBoxOf (b : Box4) : BoxCW :=
  centerToTopLeft (xyxy2xywh b)

/-- The inverse conversion named by the spec: shift the top-left corner back
to the center, then convert center/width-height back to corners. -/
def jsonBoxBack (b : BoxCW) : Box4 :=
  xywh2xyxy (topLeftToCenter b)

/-- The stored scale/padding data for one image (`batch[ratio_pad][si]`):
a scale gain and an x/y padding offset from letterboxing. -/
structure ScalePad where
  gain : ℚ
  padx : ℚ
  pady : ℚ
deriving DecidableEq, Repr

/-- Modelled from the spec: `ops.scale_boxes` rescales a box from the model's
internal input resolution to the image's original resolution using the stored
scale gain and padding offsets (this routine lives outside the source file). -/
def scale_boxes (rp : ScalePad) (b : Box4) : Box4 :=
  ⟨(b.x1 - rp.padx) / rp.gain, (b.y1 - rp.pady) / rp.gain,
   (b.x2 - rp.padx) / rp.gain, (b.y2 - rp.pady) / rp.gain⟩

/-- Elementwise scaling of a normalized corner box by the input tensor's
width/height, from `ops.xywh2xyxy(bbox) * torch.tensor((width, height, width, height))`. -/
def mulWH (w h : ℚ) (b : Box4) : Box4 :=
  ⟨b.x1 * w, b.y1 * h, b.x2 * w, b.y2 * h⟩

/-- Pointwise minimum of two rationals, written with an explicit comparison. -/
def qmin (a b : ℚ) : ℚ := if a ≤ b then a else b

/-- Pointwise maximum of two rationals, written with an explicit comparison. -/
def qmax (a b : ℚ) : ℚ := if a ≤ b then b else a

/-- Modelled from the spec: `box_iou` of two corner-format boxes, intersection
area over union area (this routine lives outside the source file). Division by
a zero union yields 0 in ℚ. -/
def boxIoU (a b : Box4) : ℚ :=
  let interW := qmin a.x2 b.x2 - qmax a.x1 b.x1
  let interH := qmin a.y2 b.y2 - qmax a.y1 b.y1
  let inter := qmax 0 interW * qmax 0 interH
  let areaA := (a.x2 - a.x1) * (a.y2 - a.y1)
  let areaB := (b.x2 - b.x1) * (b.y2 - b.y1)
  inter / (areaA + areaB - inter)

/-- The 10 IoU thresholds `torch.linspace(0.5, 0.95, 10)` fixed by the
framework. -/
def iouv : List ℚ :=
  [1/2, 11/20, 3/5, 13/20, 7/10, 3/4, 4/5, 17/20, 9/10, 19/20]

/-- `self.niou`, the number of IoU thresholds. -/
def niou : Nat := iouv.length

/-- First index attaining the maximum of a list, mirroring `tensor.max(1)`
index semantics (first maximal value wins on ties); `0` on the empty list. -/
def argmaxIdx : List ℚ → Nat
  | [] => 0
  | x :: xs => if xs.getD (argmaxIdx xs) 0 > x ∧ xs ≠ [] then argmaxIdx xs + 1 else 0

theorem argmaxIdx_lt (l : List ℚ) (h : l ≠ []) : argmaxIdx l < l.length := by
  induction l with
  | nil => exact absurd rfl h
  | cons x xs ih =>
    by_cases hxs : xs = []
    · subst hxs; simp [argmaxIdx]
    · simp only [argmaxIdx]
      by_cases hc : xs.getD (argmaxIdx xs) 0 > x ∧ xs ≠ []
      · rw [if_pos hc]
        have := ih hxs
        simpa using Nat.succ_lt_succ this
      · rw [if_neg hc]; simp

theorem argmaxIdx_max (l : List ℚ) (i : Nat) (hi : i < l.length) :
    l.getD i 0 ≤ l.getD (argmaxIdx l) 0 := by
  induction l generalizing i with
  | nil => simp at hi
  | cons x xs ih =>
    simp only [argmaxIdx]
    by_cases hc : xs.getD (argmaxIdx xs) 0 > x ∧ xs ≠ []
    · rw [if_pos hc]
      cases i with
      | zero => simpa using le_of_lt hc.1
      | succ j =>
        have hj : j < xs.length := by simpa using hi
        simpa using ih j hj
    · rw [if_neg hc]
      cases i with
      | zero => simp
      | succ j =>
        have hj : j < xs.length := by simpa using hi
        have hxs : xs ≠ [] := by
          intro hnil; subst hnil; simp at hj
        have hle : xs.getD (argmaxIdx xs) 0 ≤ x := by
          by_contra hlt
          exact hc ⟨lt_of_not_le hlt, hxs⟩
        calc xs.getD j 0 ≤ xs.getD (argmaxIdx xs) 0 := ih j hj
          _ ≤ x := hle
          _ = (x :: xs).getD 0 0 := rfl

/-- The run configuration fields read by the validator (`self.args`). The
configuration carries both a class-agnostic-NMS flag and a single-class flag
as distinct entries. -/
structure ValArgs where
  conf : ℚ
  iou : ℚ
  agnostic_nms : Bool
  max_det : Nat
  single_cls : Bool
  verbose : Bool
  plots : Bool
  save_json : Bool
deriving DecidableEq, Repr

/-- The parameter record handed to the external `ops.non_max_suppression`
routine by `postprocess`. -/
structure NMSCall where
  conf : ℚ
  iou : ℚ
  multi_label : Bool
  agnostic : Bool
  max_det : Nat
  nc : Nat
deriving DecidableEq, Repr

/-- `DWAValidator.postprocess`: builds the argument record for the external
non-maximum-suppression call from the run configuration. -/
def postprocess (args : ValArgs) (nc : Nat) : NMSCall :=
  { conf := args.conf
    iou := args.iou
    multi_label := true
    agnostic := args.single_cls
    max_det := args.max_det
    nc := nc }

/-- One row of the per-image prediction tensor after NMS:
`x1, y1, x2, y2, conf, cls, attr_0 … attr_{k-1}` (columns `6:` are the raw
attribute logits). -/
structure PredRow where
  box : Box4
  conf : ℚ
  cls : ℚ
  attrs : List ℚ
deriving DecidableEq, Repr

/-- The data `update_metrics` extracts for one image `si` of a batch:
its NMS predictions and the batch rows selected by `batch_idx == si`. -/
structure ImageData where
  pred : List PredRow
  cls : List ℚ
  bboxes : List BoxCW
  attributes : Mat ℚ
  imgW : ℚ
  imgH : ℚ
  rp : ScalePad
deriving DecidableEq, Repr

/-- An attribute-matrix slot of a statistics row: the code stores a float
matrix on some paths (`torch.zeros(0, num_attr)`, raw sigmoid probabilities)
and a thresholded boolean matrix on others. -/
inductive AttrComp
  | floats (m : Mat ℚ)
  | bools (m : Mat Bool)
deriving DecidableEq, Repr

/-- One element of `self.stats`: `(correct_bboxes, pred_attr, tattributes,
pred[:, 4], pred[:, 5], cls.squeeze(-1))`. -/
structure StatRow where
  correct : Mat Bool
  predAttr : AttrComp
  tattr : AttrComp
  conf : List ℚ
  pcls : List ℚ
  tcls : List ℚ
deriving DecidableEq, Repr

/-- Confidence-preferring selection among candidate `(index, iou, conf)`
triples: larger IoU wins, ties go to the larger confidence, remaining ties to
the earlier candidate. -/
def pickBest (cands : List (Nat × ℚ × ℚ)) : Option Nat :=
  (cands.foldl
    (fun acc c =>
      match acc with
      | none => some c
      | some b => if c.2.1 > b.2.1 ∨ (c.2.1 = b.2.1 ∧ c.2.2 > b.2.2) then some c else some b)
    none).map (·.1)

/-- Modelled from the spec: one threshold level of the shared matching routine
`BaseValidator.match_predictions` (not part of the source file). For each
ground-truth box in order, among the still-unclaimed predictions of the same
class with IoU at or above the threshold, the best candidate (max IoU,
confidence precedence on ties) claims that ground truth; each prediction is
claimed at most once. Returns the claimed prediction indices. -/
def matchAtThr (pcls pconf tcls : List ℚ) (iou : List (List ℚ)) (thr : ℚ) : List Nat :=
  (List.range tcls.length).foldl
    (fun claimed g =>
      let row := iou.getD g []
      let cands := (List.range pcls.length).filterMap
        (fun p =>
          if pcls.getD p 0 = tcls.getD g 0 ∧ row.getD p 0 ≥ thr ∧ p ∉ claimed then
            some (p, row.getD p 0, pconf.getD p 0)
          else none)
      match pickBest cands with
      | some p => claimed ++ [p]
      | none => claimed)
    []

/-- Modelled from the spec: `BaseValidator.match_predictions` (not part of the
source file). Produces the correct-prediction matrix of shape
`[num_predictions × 10 IoU levels]`: entry `(p, t)` is true when prediction `p`
is matched to some ground truth of its class at IoU threshold `t`. -/
def match_predictions (pcls pconf tcls : List ℚ) (iou : List (List ℚ)) (npr : Nat) :
    Mat Bool :=
  ⟨npr, niou,
    (List.range npr).map (fun p => iouv.map (fun thr => p ∈ matchAtThr pcls pconf tcls iou thr))⟩

/-- The prediction tensor after the in-place single-class overwrite
`if self.args.single_cls: pred[:, 5] = 0`. -/
def predArranged (args : ValArgs) (img : ImageData) : List PredRow :=
  if args.single_cls then img.pred.map (fun r => { r with cls := 0 }) else img.pred

/-- `predn`: the clone of `pred` with boxes rescaled to native image space by
`ops.scale_boxes`. -/
def prednOf (args : ValArgs) (img : ImageData) : List PredRow :=
  (predArranged args img).map (fun r => { r with box := scale_boxes img.rp r.box })

/-- `pred_attr = torch.sigmoid(predn[:, 6:])`: the attribute logits mapped
through the external sigmoid `sig`, one row per prediction. -/
def attrProbs (args : ValArgs) (sig : ℚ → ℚ) (img : ImageData) : List (List ℚ) :=
  (prednOf args img).map (fun r => r.attrs.map sig)

/-- `tbox`: ground-truth boxes converted from normalized center format to
corner format, scaled by the input tensor's width/height, then rescaled to
native image space. -/
def tboxOf (img : ImageData) : List Box4 :=
  img.bboxes.map (fun b => scale_boxes img.rp (mulWH img.imgW img.imgH (xywh2xyxy b)))

/-- `tattributes = attributes.clone().bool()`: nonzero float flags become
true. -/
def tattrOf (img : ImageData) : Mat Bool :=
  ⟨img.attributes.nr, img.attributes.nc,
    img.attributes.data.map (List.map (fun x => x ≠ 0))⟩

/-- `iou = box_iou(labels[:, 1:], detections[:, :4])` inside `_process_batch`:
one row per ground-truth box, one column per prediction. -/
def iouMat (args : ValArgs) (img : ImageData) : List (List ℚ) :=
  (tboxOf img).map (fun t => (prednOf args img).map (fun p => boxIoU t p.box))

/-- `_, idx = iou.max(1)`: for each ground-truth box, the index of the
prediction with maximum IoU against it (first index on ties). -/
def bestIdx (args : ValArgs) (img : ImageData) : List Nat :=
  (iouMat args img).map argmaxIdx

/-- The correct-prediction matrix returned by `_process_batch`:
`self.match_predictions(detections[:, 5], labels[:, 0], iou)`. -/
def correctOf (args : ValArgs) (img : ImageData) : Mat Bool :=
  match_predictions ((prednOf args img).map (·.cls)) ((prednOf args img).map (·.conf))
    img.cls (iouMat args img) img.pred.length

/-- The elementwise attribute thresholding `pred_attr[idx] > 0.5` applied to
one sigmoid probability: strictly greater than one half. -/
def attrThreshold (p : ℚ) : Bool :=
  p > 1 / 2

/-- `pred_attr = pred_attr[idx] > 0.5`: the sigmoid probability rows gathered
at the best-IoU-per-label indices and thresholded elementwise. -/
def predAttrBool (args : ValArgs) (sig : ℚ → ℚ) (img : ImageData) : Mat Bool :=
  ⟨(bestIdx args img).length, ((attrProbs args sig img).headD []).length,
    (bestIdx args img).map (fun i => ((attrProbs args sig img).getD i []).map attrThreshold)⟩

/-- A float matrix built from prediction-attribute probability rows. -/
def floatMatOf (rows : List (List ℚ)) : Mat ℚ :=
  ⟨rows.length, (rows.headD []).length, rows⟩

/-- The per-image body of `update_metrics`. `env` is the binding of the local
variable `tattributes` left by earlier images of the same call: the source
reads `tattributes` in the append on every nonzero-prediction path, but only
binds it under `if nl:`, so with zero labels the read either picks up a stale
binding from a previous image or raises `NameError`. Returns the appended
statistics row (if any) and the updated `tattributes` binding. -/
def updateImage (args : ValArgs) (sig : ℚ → ℚ) (env : Option (Mat Bool)) (img : ImageData) :
    Except String (Option StatRow × Option (Mat Bool)) :=
  let nl := img.cls.length
  let npr := img.pred.length
  let numAttr := img.attributes.nc
  let correct0 : Mat Bool := Mat.zerosB npr niou
  if npr = 0 then
    if nl ≠ 0 then
      .ok (some
        { correct := correct0
          predAttr := .floats (Mat.zerosQ 0 numAttr)
          tattr := .floats (Mat.zerosQ 0 numAttr)
          conf := []
          pcls := []
          tcls := img.cls }, env)
    else .ok (none, env)
  else
    let pconf := (predArranged args img).map (·.conf)
    let pcls := (predArranged args img).map (·.cls)
    if nl ≠ 0 then
      let t := tattrOf img
      .ok (some
        { correct := correctOf args img
          predAttr := .bools (predAttrBool args sig img)
          tattr := .bools t
          conf := pconf
          pcls := pcls
          tcls := img.cls }, some t)
    else
      match env with
      | some t =>
          .ok (some
            { correct := correct0
              predAttr := .floats (floatMatOf (attrProbs args sig img))
              tattr := .bools t
              conf := pconf
              pcls := pcls
              tcls := img.cls }, some t)
      | none => .error "NameError: name tattributes is not defined"

/-- The validator state touched by `update_metrics`: the running statistics
list, the `self.seen` counter, and the `tattributes` local binding. -/
structure UMState where
  stats : List StatRow
  seen : Nat
  tattrEnv : Option (Mat Bool)
deriving DecidableEq, Repr

/-- `DWAValidator.update_metrics`: the loop over the images of a batch,
threading the statistics list, the seen counter and the `tattributes`
binding. -/
def update_metrics (args : ValArgs) (sig : ℚ → ℚ) :
    List ImageData → UMState → Except String UMState
  | [], st => .ok st
  | img :: rest, st =>
    match updateImage args sig st.tattrEnv img with
    | .error e => .error e
    | .ok (row, env) =>
        update_metrics args sig rest
          { stats := st.stats ++ (match row with | some r => [r] | none => [])
            seen := st.seen + 1
            tattrEnv := env }

/-- The validator/metrics state read by `print_results`. `classResult`
is modelled from the spec: `DWAMetrics.class_result` (not part of the source
file) yields the four per-class detection metrics — precision, recall, mAP50,
mAP50-95 — matching the truncated per-class print format `pf_det`; attribute
metrics are aggregate-only. -/
structure PrintState where
  seen : Nat
  ntPerClass : List Nat
  meanResults : List ℚ
  apClassIndex : List Nat
  classResult : Nat → ℚ × ℚ × ℚ × ℚ
  names : Nat → String
  nc : Nat
  training : Bool
  statsLen : Nat

/-- One console emission of `print_results`: an info row (class name, image
count, instance count, metric values) or a warning. -/
inductive OutEvent
  | info (cls : String) (images : Nat) (instances : Nat) (vals : List ℚ)
  | warn (msg : String)
deriving DecidableEq, Repr

/-- `DWAValidator.print_results`: the aggregate row, the no-labels warning
when no ground-truth instance was seen, and — only when verbose, not
training, more than one class, and a nonempty statistics list — one row per
class in `ap_class_index` printed with the four detection metrics. -/
def print_results (args : ValArgs) (s : PrintState) : List OutEvent :=
  [.info "all" s.seen s.ntPerClass.sum s.meanResults]
  ++ (if s.ntPerClass.sum = 0 then [.warn "no labels found"] else [])
  ++ (if args.verbose = true ∧ s.training = false ∧ 1 < s.nc ∧ s.statsLen ≠ 0 then
        (List.range s.apClassIndex.length).map (fun i =>
          let c := s.apClassIndex.getD i 0
          let m := s.classResult i
          .info (s.names c) s.seen (s.ntPerClass.getD c 0) [m.1, m.2.1, m.2.2.1, m.2.2.2])
      else [])

/-! Helper lemmas about the embedded definitions. -/

theorem predArranged_length (args : ValArgs) (img : ImageData) :
    (predArranged args img).length = img.pred.length := by
  unfold predArranged; split <;> simp

theorem prednOf_length (args : ValArgs) (img : ImageData) :
    (prednOf args img).length = img.pred.length := by
  simp [prednOf, predArranged_length]

theorem iouMat_length (args : ValArgs) (img : ImageData) :
    (iouMat args img).length = img.bboxes.length := by
  simp [iouMat, tboxOf]

theorem iouMat_row_length (args : ValArgs) (img : ImageData) (j : Nat)
    (hj : j < (iouMat args img).length) :
    ((iouMat args img).getD j []).length = img.pred.length := by
  rw [List.getD_eq_getElem _ _ hj]
  unfold iouMat
  rw [List.getElem_map]
  simp [prednOf_length]

theorem iouv_length : iouv.length = 10 := by
  simp [iouv]

theorem zerosB_nc (n m : Nat) : (Mat.zerosB n m).nc = m := rfl

theorem zerosB_data (n m : Nat) :
    (Mat.zerosB n m).data.length = n ∧ ∀ r ∈ (Mat.zerosB n m).data, r.length = m := by
  constructor
  · simp [Mat.zerosB]
  · intro r hr
    rw [List.eq_of_mem_replicate hr]
    simp

theorem match_predictions_shape (pcls pconf tcls : List ℚ) (iou : List (List ℚ)) (npr : Nat) :
    (match_predictions pcls pconf tcls iou npr).nc = 10 ∧
    (match_predictions pcls pconf tcls iou npr).data.length =
      (match_predictions pcls pconf tcls iou npr).nr ∧
    ∀ r ∈ (match_predictions pcls pconf tcls iou npr).data, r.length = 10 := by
  refine ⟨rfl, by simp [match_predictions], ?_⟩
  intro r hr
  simp only [match_predictions, List.mem_map] at hr
  obtain ⟨p, _, hp⟩ := hr
  rw [← hp]
  simp [iouv_length]

/-! Concrete inputs used to evaluate the embedded code. -/

/-- A generic run configuration with both class-related flags off. -/
def args0 : ValArgs :=
  { conf := 1/4, iou := 7/10, agnostic_nms := false, max_det := 300,
    single_cls := false, verbose := false, plots := false, save_json := false }

/-- `args0` with the single-class flag set (the class-agnostic flag stays
off). -/
def argsS : ValArgs := { args0 with single_cls := true }

/-- `args0` with the verbose flag set. -/
def argsV : ValArgs := { args0 with verbose := true }

/-- An image with one prediction whose box coincides with the one
ground-truth box of the same class. -/
def imgA : ImageData :=
  { pred := [{ box := ⟨0, 0, 10, 10⟩, conf := 9/10, cls := 1, attrs := [0] }]
    cls := [1]
    bboxes := [⟨1/2, 1/2, 1, 1⟩]
    attributes := ⟨1, 1, [[1]]⟩
    imgW := 10, imgH := 10
    rp := ⟨1, 0, 0⟩ }

/-- An image with one prediction and no ground-truth labels. -/
def imgNL : ImageData :=
  { pred := [{ box := ⟨0, 0, 10, 10⟩, conf := 1, cls := 1, attrs := [0] }]
    cls := []
    bboxes := []
    attributes := ⟨0, 1, []⟩
    imgW := 10, imgH := 10
    rp := ⟨1, 0, 0⟩ }

/-- An image with no predictions and one ground-truth label carrying three
attribute flags. -/
def imgZP : ImageData :=
  { pred := []
    cls := [2]
    bboxes := [⟨1/2, 1/2, 1, 1⟩]
    attributes := ⟨1, 3, [[1, 0, 1]]⟩
    imgW := 10, imgH := 10
    rp := ⟨1, 0, 0⟩ }

/-- An image with no predictions and no ground-truth labels. -/
def imgEmpty : ImageData :=
  { pred := []
    cls := []
    bboxes := []
    attributes := ⟨0, 2, []⟩
    imgW := 10, imgH := 10
    rp := ⟨1, 0, 0⟩ }

/-- A one-by-one true-attribute matrix, used as a stale `tattributes`
binding. -/
def tA : Mat Bool := ⟨1, 1, [[true]]⟩

/-! Claim theorems. -/

/-- C1: the claim says every image with at least one prediction gets exactly
one well-formed statistics row, including images with zero ground-truth
labels; but on such an image the source reads the local `tattributes` without
having bound it, so the first such image of a call raises `NameError` instead
of appending a row. The embedded code evaluates to that error at the failing
input. -/
theorem c1_unbound_tattributes_error :
    update_metrics args0 (fun x => x) [imgNL] { stats := [], seen := 0, tattrEnv := none } =
      .error "NameError: name tattributes is not defined" := by
  rfl

/-- C7: for an image with zero predictions and zero ground-truth labels,
`update_metrics` appends no statistics row: the statistics list (and the
`tattributes` binding) are unchanged, only the seen counter advances. -/
theorem c7_no_stats_append (args : ValArgs) (sig : ℚ → ℚ) (st : UMState) (img : ImageData)
    (h1 : img.pred = []) (h2 : img.cls = []) :
    update_metrics args sig [img] st =
      .ok { stats := st.stats, seen := st.seen + 1, tattrEnv := st.tattrEnv } := by
  simp only [update_metrics, updateImage, h1, h2]
  simp

/-- Witness for C7 at a concrete empty image. -/
theorem c7_no_stats_append_witness :
    imgEmpty.pred = [] ∧ imgEmpty.cls = [] ∧
    update_metrics args0 (fun x => x) [imgEmpty] { stats := [], seen := 3, tattrEnv := some tA } =
      .ok { stats := [], seen := 4, tattrEnv := some tA } := by
  refine ⟨rfl, rfl, ?_⟩
  exact c7_no_stats_append args0 (fun x => x) _ imgEmpty rfl rfl

/-- C5: for an image with zero predictions and at least one ground-truth
label, the appended statistics row has an all-false correctness matrix with
zero rows and 10 columns, zero-row predicted/true attribute matrices with
`num_attr` columns, empty confidence and class vectors, and the image's
ground-truth class vector. -/
theorem c5_zero_pred_stat_row (args : ValArgs) (sig : ℚ → ℚ) (env : Option (Mat Bool))
    (img : ImageData) (h1 : img.pred = []) (h2 : img.cls ≠ []) :
    updateImage args sig env img =
      .ok (some
        { correct := Mat.zerosB 0 niou
          predAttr := .floats (Mat.zerosQ 0 img.attributes.nc)
          tattr := .floats (Mat.zerosQ 0 img.attributes.nc)
          conf := []
          pcls := []
          tcls := img.cls }, env) ∧
    niou = 10 ∧ (Mat.zerosB 0 niou).nr = 0 ∧ (Mat.zerosB 0 niou).data = [] ∧
    (Mat.zerosQ 0 img.attributes.nc).nr = 0 ∧ (Mat.zerosQ 0 img.attributes.nc).nc =
      img.attributes.nc := by
  have hnl : ¬ img.cls.length = 0 := by
    simpa [List.length_eq_zero] using h2
  refine ⟨?_, rfl, rfl, rfl, rfl, rfl⟩
  simp only [updateImage, h1]
  simp [hnl]

/-- Witness for C5 at a concrete zero-prediction image with three
attributes. -/
theorem c5_zero_pred_stat_row_witness :
    imgZP.pred = [] ∧ imgZP.cls ≠ [] ∧
    (updateImage args0 (fun x => x) none imgZP =
      .ok (some
        { correct := Mat.zerosB 0 niou
          predAttr := .floats (Mat.zerosQ 0 imgZP.attributes.nc)
          tattr := .floats (Mat.zerosQ 0 imgZP.attributes.nc)
          conf := []
          pcls := []
          tcls := imgZP.cls }, none) ∧
      niou = 10 ∧ (Mat.zerosB 0 niou).nr = 0 ∧ (Mat.zerosB 0 niou).data = [] ∧
      (Mat.zerosQ 0 imgZP.attributes.nc).nr = 0 ∧ (Mat.zerosQ 0 imgZP.attributes.nc).nc =
        imgZP.attributes.nc) := by
  refine ⟨rfl, by simp [imgZP], ?_⟩
  exact c5_zero_pred_stat_row args0 (fun x => x) none imgZP rfl (by simp [imgZP])

/-- C4 counterexample: the claim says the class-agnostic mode passed to NMS
equals the configuration's class-agnostic flag; with the single-class flag on
and the class-agnostic flag off, the mode actually passed differs from the
class-agnostic flag. -/
theorem c4_agnostic_flag_mismatch :
    (postprocess argsS 3).agnostic ≠ argsS.agnostic_nms := by
  simp [postprocess, argsS, args0]

/-- C4 amended: `postprocess` hands NMS the configuration's confidence
threshold, IoU threshold and max-detections cap, but the class-agnostic mode
it passes is the configuration's single-class flag, not the distinct
class-agnostic entry. -/
theorem c4_nms_from_config (args : ValArgs) (nc : Nat) :
    (postprocess args nc).conf = args.conf ∧
    (postprocess args nc).iou = args.iou ∧
    (postprocess args nc).agnostic = args.single_cls ∧
    (postprocess args nc).max_det = args.max_det ∧
    (postprocess args nc).multi_label = true ∧
    (postprocess args nc).nc = nc :=
  ⟨rfl, rfl, rfl, rfl, rfl, rfl⟩

/-- C9: the JSON-export box conversion — corners to center/width-height, then
center shifted to the top-left corner — is exactly inverted by shifting back
to the center and converting back to corners. -/
theorem c9_json_box_roundtrip (b : Box4) : jsonBoxBack (jsonBoxOf b) = b := by
  cases b with
  | mk x1 y1 x2 y2 =>
    simp only [jsonBoxBack, jsonBoxOf, centerToTopLeft, topLeftToCenter, xyxy2xywh, xywh2xyxy,
      Box4.mk.injEq]
    refine ⟨?_, ?_, ?_, ?_⟩ <;> ring

/-- C6: every statistics row appended by the per-image update carries a
correctness matrix with exactly 10 columns (one per IoU threshold), with a
consistent row count, on every branch including the zero-prediction one. -/
theorem c6_correct_matrix_ten_cols (args : ValArgs) (sig : ℚ → ℚ) (env : Option (Mat Bool))
    (img : ImageData) (row : StatRow) (env2 : Option (Mat Bool))
    (h : updateImage args sig env img = .ok (some row, env2)) :
    row.correct.nc = 10 ∧ row.correct.data.length = row.correct.nr ∧
    ∀ r ∈ row.correct.data, r.length = 10 := by
  simp only [updateImage] at h
  split at h
  · split at h
    · simp only [Except.ok.injEq, Prod.mk.injEq, Option.some.injEq] at h
      obtain ⟨hr, -⟩ := h
      subst hr
      exact ⟨rfl, (zerosB_data _ _).1, (zerosB_data _ _).2⟩
    · simp at h
  · split at h
    · simp only [Except.ok.injEq, Prod.mk.injEq, Option.some.injEq] at h
      obtain ⟨hr, -⟩ := h
      subst hr
      exact match_predictions_shape _ _ _ _ _
    · split at h
      · simp only [Except.ok.injEq, Prod.mk.injEq, Option.some.injEq] at h
        obtain ⟨hr, -⟩ := h
        subst hr
        exact ⟨rfl, (zerosB_data _ _).1, (zerosB_data _ _).2⟩
      · cases h

/-- The statistics row appended for the zero-prediction image `imgZP`. -/
def rowZP : StatRow :=
  { correct := Mat.zerosB 0 niou
    predAttr := .floats (Mat.zerosQ 0 3)
    tattr := .floats (Mat.zerosQ 0 3)
    conf := []
    pcls := []
    tcls := [2] }

/-- Witness for C6 at the concrete zero-prediction image. -/
theorem c6_correct_matrix_ten_cols_witness :
    rowZP.correct.nc = 10 ∧ rowZP.correct.data.length = rowZP.correct.nr ∧
    ∀ r ∈ rowZP.correct.data, r.length = 10 := by
  have hEval : updateImage args0 (fun x => x) none imgZP = .ok (some rowZP, none) := by
    simp [updateImage, imgZP, rowZP]
  exact c6_correct_matrix_ten_cols args0 (fun x => x) none imgZP rowZP none hEval

/-- C10: with the single-class flag set, the class id of every prediction is
overwritten with 0 before cloning, matching and appending, so every
per-prediction class value in any appended statistics row is 0, and the
native-space predictions used for class matching all carry class 0. -/
theorem c10_single_cls_zero (args : ValArgs) (sig : ℚ → ℚ) (env : Option (Mat Bool))
    (img : ImageData) (row : StatRow) (env2 : Option (Mat Bool))
    (hs : args.single_cls = true)
    (h : updateImage args sig env img = .ok (some row, env2)) :
    (∀ c ∈ row.pcls, c = 0) ∧ ∀ p ∈ prednOf args img, p.cls = 0 := by
  have hpa : ∀ r ∈ predArranged args img, r.cls = 0 := by
    intro r hr
    simp only [predArranged, hs, if_true, List.mem_map] at hr
    obtain ⟨q, -, hq⟩ := hr
    rw [← hq]
  have hmap : ∀ c ∈ (predArranged args img).map (fun r => r.cls), c = 0 := by
    intro c hc
    simp only [List.mem_map] at hc
    obtain ⟨r, hr, hcr⟩ := hc
    rw [← hcr]
    exact hpa r hr
  refine ⟨?_, ?_⟩
  · simp only [updateImage] at h
    split at h
    · split at h
      · simp only [Except.ok.injEq, Prod.mk.injEq, Option.some.injEq] at h
        obtain ⟨hr, -⟩ := h
        subst hr
        intro c hc
        simp at hc
      · simp at h
    · split at h
      · simp only [Except.ok.injEq, Prod.mk.injEq, Option.some.injEq] at h
        obtain ⟨hr, -⟩ := h
        subst hr
        exact hmap
      · split at h
        · simp only [Except.ok.injEq, Prod.mk.injEq, Option.some.injEq] at h
          obtain ⟨hr, -⟩ := h
          subst hr
          exact hmap
        · cases h
  · intro p hp
    simp only [prednOf, List.mem_map] at hp
    obtain ⟨r, hr, hrp⟩ := hp
    rw [← hrp]
    exact hpa r hr

/-- The statistics row appended for `imgNL` under the single-class
configuration with a stale `tattributes` binding. -/
def rowNL : StatRow :=
  { correct := Mat.zerosB 1 niou
    predAttr := .floats ⟨1, 1, [[0]]⟩
    tattr := .bools tA
    conf := [1]
    pcls := [0]
    tcls := [] }

/-- Witness for C10 at a concrete single-class input. -/
theorem c10_single_cls_zero_witness :
    argsS.single_cls = true ∧
    (∀ c ∈ rowNL.pcls, c = 0) ∧ ∀ p ∈ prednOf argsS imgNL, p.cls = 0 := by
  have hEval : updateImage argsS (fun _ => 0) (some tA) imgNL = .ok (some rowNL, some tA) := by
    simp [updateImage, imgNL, argsS, args0, predArranged, prednOf, attrProbs, floatMatOf,
      rowNL, tA]
  exact ⟨rfl, (c10_single_cls_zero argsS (fun _ => 0) (some tA) imgNL rowNL (some tA) rfl
    hEval).1, (c10_single_cls_zero argsS (fun _ => 0) (some tA) imgNL rowNL (some tA) rfl
    hEval).2⟩

/-- C2 counterexample: at an input whose sigmoid probability is exactly 0.5,
the appended predicted-attribute boolean is `false`, refuting the claim that a
probability equal to 0.5 yields `true`: the source thresholds with a strict
comparison. -/
theorem c2_half_probability_false :
    (match updateImage args0 (fun _ => 1/2) none imgA with
      | .ok (some row, _) => row.predAttr
      | _ => .floats (Mat.zerosQ 0 0)) = .bools ⟨1, 1, [[false]]⟩ ∧
    attrThreshold (1/2) = false := by
  constructor
  · have h1 : ¬ imgA.pred.length = 0 := by simp [imgA]
    have h2 : ¬ imgA.cls.length = 0 := by simp [imgA]
    simp only [updateImage, if_neg h1, if_pos h2]
    have hb : bestIdx args0 imgA = [0] := by
      simp [bestIdx, iouMat, tboxOf, imgA, argmaxIdx]
    simp only [predAttrBool, hb]
    have hp : attrProbs args0 (fun _ => (1 : ℚ)/2) imgA = [[1/2]] := by
      simp [attrProbs, prednOf, predArranged, args0, imgA]
    simp only [hp]
    simp [attrThreshold, decide_eq_false_iff_not]
  · simp [attrThreshold, decide_eq_false_iff_not]

/-- C2 amended: the attribute thresholding applied to the gathered sigmoid
probabilities is the elementwise pure function `probability strictly greater
than 0.5 maps to true, else false` — a function of the probability value
alone, independent of box coordinates — and a probability exactly equal to
0.5 yields `false`. -/
theorem c2_strict_threshold (args : ValArgs) (sig : ℚ → ℚ) (env : Option (Mat Bool))
    (img : ImageData) (h1 : img.cls ≠ []) (h2 : img.pred ≠ []) :
    ∃ row, updateImage args sig env img = .ok (some row, some (tattrOf img)) ∧
      row.predAttr = .bools (predAttrBool args sig img) ∧
      (predAttrBool args sig img).data =
        (bestIdx args img).map (fun i => ((attrProbs args sig img).getD i []).map attrThreshold) ∧
      (∀ p : ℚ, attrThreshold p = decide (p > 1/2)) ∧
      attrThreshold (1/2) = false := by
  have hnpr : ¬ img.pred.length = 0 := by simpa [List.length_eq_zero] using h2
  have hnl : ¬ img.cls.length = 0 := by simpa [List.length_eq_zero] using h1
  refine ⟨{ correct := correctOf args img
            predAttr := .bools (predAttrBool args sig img)
            tattr := .bools (tattrOf img)
            conf := (predArranged args img).map (fun r => r.conf)
            pcls := (predArranged args img).map (fun r => r.cls)
            tcls := img.cls }, ?_, rfl, rfl, fun p => rfl, ?_⟩
  · simp only [updateImage, if_neg hnpr, if_pos hnl]
  · simp [attrThreshold, decide_eq_false_iff_not]

/-- Witness for C2 at a concrete labelled image. -/
theorem c2_strict_threshold_witness :
    (imgA.cls ≠ [] ∧ imgA.pred ≠ []) ∧
    ∃ row, updateImage args0 (fun _ => 1/2) none imgA = .ok (some row, some (tattrOf imgA)) ∧
      row.predAttr = .bools (predAttrBool args0 (fun _ => 1/2) imgA) ∧
      (predAttrBool args0 (fun _ => 1/2) imgA).data =
        (bestIdx args0 imgA).map
          (fun i => ((attrProbs args0 (fun _ => 1/2) imgA).getD i []).map attrThreshold) ∧
      (∀ p : ℚ, attrThreshold p = decide (p > 1/2)) ∧
      attrThreshold (1/2) = false :=
  ⟨⟨by simp [imgA], by simp [imgA]⟩,
    c2_strict_threshold args0 (fun _ => 1/2) none imgA (by simp [imgA]) (by simp [imgA])⟩

/-- C3: for an image with labels and predictions, the matching step takes,
for each ground-truth box, the first index of a prediction with maximum IoU
against it (several ground truths may pick the same index), and the appended
predicted-attribute boolean matrix gathers the thresholded probabilities at
exactly those indices, one row per ground-truth label. -/
theorem c3_best_iou_per_label (args : ValArgs) (sig : ℚ → ℚ) (env : Option (Mat Bool))
    (img : ImageData) (h1 : img.cls ≠ []) (h2 : img.pred ≠ [])
    (hwf : img.bboxes.length = img.cls.length) :
    ∃ row, updateImage args sig env img = .ok (some row, some (tattrOf img)) ∧
      row.predAttr = .bools (predAttrBool args sig img) ∧
      (predAttrBool args sig img).data =
        (bestIdx args img).map (fun i => ((attrProbs args sig img).getD i []).map attrThreshold) ∧
      (predAttrBool args sig img).data.length = img.cls.length ∧
      bestIdx args img = (iouMat args img).map argmaxIdx ∧
      ∀ j, j < (bestIdx args img).length →
        (bestIdx args img).getD j 0 < img.pred.length ∧
        ∀ p, p < img.pred.length →
          ((iouMat args img).getD j []).getD p 0 ≤
            ((iouMat args img).getD j []).getD ((bestIdx args img).getD j 0) 0 := by
  have hnpr : ¬ img.pred.length = 0 := by simpa [List.length_eq_zero] using h2
  have hnl : ¬ img.cls.length = 0 := by simpa [List.length_eq_zero] using h1
  refine ⟨{ correct := correctOf args img
            predAttr := .bools (predAttrBool args sig img)
            tattr := .bools (tattrOf img)
            conf := (predArranged args img).map (fun r => r.conf)
            pcls := (predArranged args img).map (fun r => r.cls)
            tcls := img.cls }, ?_, rfl, rfl, ?_, rfl, ?_⟩
  · simp only [updateImage, if_neg hnpr, if_pos hnl]
  · simp [predAttrBool, bestIdx, iouMat_length, hwf]
  · intro j hj
    have hj' : j < (iouMat args img).length := by
      simpa [bestIdx] using hj
    have hbj : (bestIdx args img).getD j 0 = argmaxIdx ((iouMat args img).getD j []) := by
      unfold bestIdx
      rw [List.getD_eq_getElem _ _ (by simpa using hj'), List.getElem_map,
        ← List.getD_eq_getElem _ _ hj']
    have hrl : ((iouMat args img).getD j []).length = img.pred.length :=
      iouMat_row_length args img j hj'
    have hne : (iouMat args img).getD j [] ≠ [] := by
      intro hn
      rw [hn] at hrl
      simp at hrl
      exact h2 (List.length_eq_zero.mp hrl.symm)
    constructor
    · rw [hbj, ← hrl]
      exact argmaxIdx_lt _ hne
    · intro p hp
      rw [hbj]
      exact argmaxIdx_max _ p (by rw [hrl]; exact hp)

/-- Witness for C3 at a concrete labelled image. -/
theorem c3_best_iou_per_label_witness :
    (imgA.cls ≠ [] ∧ imgA.pred ≠ [] ∧ imgA.bboxes.length = imgA.cls.length) ∧
    ∃ row, updateImage args0 (fun x => x) none imgA = .ok (some row, some (tattrOf imgA)) ∧
      row.predAttr = .bools (predAttrBool args0 (fun x => x) imgA) ∧
      (predAttrBool args0 (fun x => x) imgA).data =
        (bestIdx args0 imgA).map
          (fun i => ((attrProbs args0 (fun x => x) imgA).getD i []).map attrThreshold) ∧
      (predAttrBool args0 (fun x => x) imgA).data.length = imgA.cls.length ∧
      bestIdx args0 imgA = (iouMat args0 imgA).map argmaxIdx ∧
      ∀ j, j < (bestIdx args0 imgA).length →
        (bestIdx args0 imgA).getD j 0 < imgA.pred.length ∧
        ∀ p, p < imgA.pred.length →
          ((iouMat args0 imgA).getD j []).getD p 0 ≤
            ((iouMat args0 imgA).getD j []).getD ((bestIdx args0 imgA).getD j 0) 0 :=
  ⟨⟨by simp [imgA], by simp [imgA], rfl⟩,
    c3_best_iou_per_label args0 (fun x => x) none imgA (by simp [imgA]) (by simp [imgA]) rfl⟩

/-- A concrete metrics/validator state for `print_results`: two classes, two
per-class entries, seven ground-truth instances seen, but an empty statistics
list. -/
def ps0 : PrintState :=
  { seen := 5
    ntPerClass := [3, 4]
    meanResults := [1/2]
    apClassIndex := [0, 1]
    classResult := fun _ => (0, 0, 0, 0)
    names := fun _ => "c"
    nc := 2
    training := false
    statsLen := 0 }

/-- `ps0` with a nonempty statistics list. -/
def psV : PrintState := { ps0 with statsLen := 1 }

/-- C8 counterexample: with the verbose flag set and more than one class, but
an empty statistics list, `print_results` emits no per-class rows — only the
aggregate row — refuting the claim that verbosity and multi-class alone
suffice (the source also requires a training-mode check and a nonempty
statistics list). -/
theorem c8_missing_conditions :
    argsV.verbose = true ∧ 1 < ps0.nc ∧ ps0.apClassIndex.length = 2 ∧
    print_results argsV ps0 = [.info "all" 5 7 [1/2]] := by
  refine ⟨rfl, by simp [ps0], rfl, ?_⟩
  simp [print_results, ps0, argsV, args0]

/-- C8 amended: for every configuration and state, `print_results` leads with
the aggregate row over all classes, warns exactly when zero ground-truth
instances were seen, and — when verbose is set, the validator is not in
training mode, the class count exceeds one, and the statistics list is
nonempty — additionally emits the per-class rows, four detection metric
values each. -/
theorem c8_print_rows (args : ValArgs) (s : PrintState) :
    (print_results args s).head? = some (.info "all" s.seen s.ntPerClass.sum s.meanResults) ∧
    (OutEvent.warn "no labels found" ∈ print_results args s ↔ s.ntPerClass.sum = 0) ∧
    ((args.verbose = true ∧ s.training = false ∧ 1 < s.nc ∧ s.statsLen ≠ 0) →
      (print_results args s).drop (if s.ntPerClass.sum = 0 then 2 else 1) =
        (List.range s.apClassIndex.length).map (fun i =>
          OutEvent.info (s.names (s.apClassIndex.getD i 0)) s.seen
            (s.ntPerClass.getD (s.apClassIndex.getD i 0) 0)
            [(s.classResult i).1, (s.classResult i).2.1, (s.classResult i).2.2.1,
              (s.classResult i).2.2.2])) := by
  refine ⟨rfl, ?_, ?_⟩
  · by_cases hz : s.ntPerClass.sum = 0
    · simp [print_results, hz]
    · by_cases hcond : args.verbose = true ∧ s.training = false ∧ 1 < s.nc ∧ s.statsLen ≠ 0
      · simp [print_results, hz, hcond]
      · simp [print_results, hz, hcond]
  · intro hcond
    unfold print_results
    rw [if_pos hcond]
    by_cases hz : s.ntPerClass.sum = 0
    · rw [if_pos hz, if_pos hz]
      simp
    · rw [if_neg hz, if_neg hz]
      simp

/-- Witness for C8 at a concrete verbose, multi-class, nonempty-statistics
state, discharging the per-class condition there. -/
theorem c8_print_rows_witness :
    (print_results argsV psV).head? =
      some (.info "all" psV.seen psV.ntPerClass.sum psV.meanResults) ∧
    (OutEvent.warn "no labels found" ∈ print_results argsV psV ↔ psV.ntPerClass.sum = 0) ∧
    (argsV.verbose = true ∧ psV.training = false ∧ 1 < psV.nc ∧ psV.statsLen ≠ 0) ∧
    (print_results argsV psV).drop (if psV.ntPerClass.sum = 0 then 2 else 1) =
      (List.range psV.apClassIndex.length).map (fun i =>
        OutEvent.info (psV.names (psV.apClassIndex.getD i 0)) psV.seen
          (psV.ntPerClass.getD (psV.apClassIndex.getD i 0) 0)
          [(psV.classResult i).1, (psV.classResult i).2.1, (psV.classResult i).2.2.1,
            (psV.classResult i).2.2.2]) := by
  have h := c8_print_rows argsV psV
  have hcond : argsV.verbose = true ∧ psV.training = false ∧ 1 < psV.nc ∧ psV.statsLen ≠ 0 :=
    ⟨rfl, rfl, by simp [psV, ps0], by simp [psV, ps0]⟩
  exact ⟨h.1, h.2.1, hcond, h.2.2 hcond⟩

end MLDwA
